import Mathlib

/-
Verification of the ccc-ragbot transport layer.

The repository wraps an externally defined conversational graph with three
transports (plain JSON, Server-Sent Events, WebSocket) plus helper
extractors and a suggestion endpoint.  The graph itself is opaque: the code
only consumes the sequence of "chunks" its stream yields (each chunk a
mapping from node name to an update holding a list of messages), the result
of invoke (a state with a messages list), and get_state.  We therefore model
a graph run by the list of chunks it yields, a chunk by its (node, messages)
pairs in dict insertion order, and a message by its kind plus payload.
-/

namespace Ragbot

/-- A message object as the servers see it: human, AI, or tool message.
LangChain messages all carry a content string; tool messages also carry a
name.  (run_graph guards message content access with hasattr, which is
always true for these objects.) -/
inductive Msg where
  | human (content : String)
  | ai (content : String)
  | tool (name : String) (content : String)
deriving DecidableEq

/-- The content attribute of a message. -/
def msgContent : Msg → String
  | .human c => c
  | .ai c => c
  | .tool _ c => c

/-- isinstance(msg, AIMessage) -/
def isAI : Msg → Bool
  | .ai _ => true
  | _ => false

/-- isinstance(msg, ToolMessage) -/
def isTool : Msg → Bool
  | .tool _ _ => true
  | _ => false

/-- The name attribute of a tool message (only read on ToolMessage). -/
def toolName : Msg → String
  | .tool n _ => n
  | _ => ""

/-- One (node, update) pair of a chunk: node name and the update's
"messages" list. -/
abbrev NodeUpdate := String × List Msg

/-- One chunk yielded by graph.stream: its items() in insertion order. -/
abbrev Chunk := List NodeUpdate

/-- Every update in every chunk has a non-empty messages list, so that
update["messages"][-1] does not raise IndexError. -/
def wellFormed (chunks : List Chunk) : Bool :=
  chunks.all fun c => c.all fun nu => !nu.2.isEmpty

/-- Python `x or y` for an optional string x: y when x is None or empty. -/
def pyOr : Option String → String → String
  | none, d => d
  | some s, d => if s = "" then d else s

/-- Python truthiness test `not x` for an optional string. -/
def falsy : Option String → Bool
  | none => true
  | some s => s == ""

/-- Content of messages[-1]; "" only in the empty (IndexError) case, which
callers rule out or turn into an exception. -/
def lastContent (msgs : List Msg) : String :=
  match msgs.getLast? with
  | some m => msgContent m
  | none => ""

/-- The steps_log line "Step s | Node: n\nResponse: c" of run_graph. -/
def stepLine (step : Nat) (node content : String) : String :=
  "Step " ++ toString step ++ " | Node: " ++ node ++ "\nResponse: " ++ content

/-! ### run_graph (main.py, non-streaming core) -/

/-- One iteration of the inner loop of run_graph: read update["messages"][-1]
(None = IndexError), append the steps_log line, set final_answer. -/
def runNode (step : Nat) (acc : String × List String) (nu : NodeUpdate) :
    Option (String × List String) :=
  match nu.2.getLast? with
  | none => none
  | some m => some (msgContent m, acc.2 ++ [stepLine step nu.1 (msgContent m)])

/-- The inner  for node, update in chunk.items()  loop of run_graph. -/
def runChunkNodes (step : Nat) (acc : String × List String) :
    List NodeUpdate → Option (String × List String)
  | [] => some acc
  | nu :: rest =>
    match runNode step acc nu with
    | none => none
    | some acc2 => runChunkNodes step acc2 rest

/-- The outer  for step, chunk in enumerate(graph.stream(...), start=1)
loop of run_graph; step increases by one per chunk. -/
def runChunks (step : Nat) (acc : String × List String) :
    List Chunk → Option (String × List String)
  | [] => some acc
  | c :: rest =>
    match runChunkNodes step acc c with
    | none => none
    | some acc2 => runChunks (step + 1) acc2 rest

/-- run_graph of main.py, as a function of the chunks graph.stream yields:
returns (final_answer, steps_log), or none when an IndexError escapes. -/
def run_graph (chunks : List Chunk) : Option (String × List String) :=
  runChunks 1 ("", []) chunks

/-! ### sse_graph_stream (main.py SSE generator) -/

/-- An SSE data event of sse_graph_stream. -/
inductive SSEEvent where
  | init (thread_id : String)
  | step (step : Nat) (node : String) (content : String)
  | done
deriving DecidableEq

/-- Inner node loop of sse_graph_stream; the Bool is false when an
IndexError aborts the generator (events already yielded are kept). -/
def sseNodes (step : Nat) : List NodeUpdate → List SSEEvent × Bool
  | [] => ([], true)
  | nu :: rest =>
    match nu.2.getLast? with
    | none => ([], false)
    | some m =>
      let r := sseNodes step rest
      (SSEEvent.step step nu.1 (msgContent m) :: r.1, r.2)

/-- Outer enumerate(..., start=1) loop of sse_graph_stream. -/
def sseChunks (step : Nat) : List Chunk → List SSEEvent × Bool
  | [] => ([], true)
  | c :: rest =>
    let r := sseNodes step c
    if r.2 then
      let r2 := sseChunks (step + 1) rest
      (r.1 ++ r2.1, r2.2)
    else r

/-- sse_graph_stream of main.py: the events the generator yields for a given
thread id and stream.  The init event comes first; the done event is yielded
only when the loop finishes without an exception. -/
def sse_graph_stream (thread_id : String) (chunks : List Chunk) : List SSEEvent :=
  SSEEvent.init thread_id ::
    ((sseChunks 1 chunks).1 ++ (if (sseChunks 1 chunks).2 then [SSEEvent.done] else []))

/-! ### event_stream (server.py /chat/stream SSE generator) -/

/-- An SSE event of server.py's event_stream. -/
inductive ChatEvent where
  | thread (thread_id : String)
  | node (name : String)
  | message (content : String)
  | tool (name : String)
  | done
deriving DecidableEq

/-- The  for msg in update["messages"]  loop: AI messages become message
events, tool messages become tool events, others nothing. -/
def msgEvents (msgs : List Msg) : List ChatEvent :=
  msgs.filterMap fun m =>
    match m with
    | .ai c => some (ChatEvent.message c)
    | .tool n _ => some (ChatEvent.tool n)
    | .human _ => none

/-- event_stream of server.py: thread event, then per (node, update) a node
event followed by its message/tool events, then done.  Total: it never
indexes into the messages list. -/
def event_stream (thread_id : String) (chunks : List Chunk) : List ChatEvent :=
  ChatEvent.thread thread_id ::
    ((chunks.flatMap fun c =>
        c.flatMap fun nu => ChatEvent.node nu.1 :: msgEvents nu.2)
      ++ [ChatEvent.done])

/-! ### query_ws (main.py WebSocket handler) -/

/-- The JSON object received by websocket.receive_json: query key (absent
models the KeyError from data["query"]) and optional thread_id. -/
structure RecvData where
  query : Option String
  thread_id : Option String
deriving DecidableEq

/-- A JSON frame sent by query_ws. -/
inductive WSFrame where
  | init (thread_id : String)
  | step (step : Nat) (node : String) (content : String)
  | done
deriving DecidableEq

/-- Frames sent so far and the index of the next send attempt. -/
structure WSBodyState where
  sent : List WSFrame
  count : Nat
deriving DecidableEq

/-- One websocket.send_json call: the sendOk oracle says whether the n-th
send succeeds; a failing send raises before the frame is delivered. -/
def wsSend (sendOk : Nat → Bool) (st : WSBodyState) (f : WSFrame) :
    WSBodyState × Bool :=
  if sendOk st.count then ({ sent := st.sent ++ [f], count := st.count + 1 }, true)
  else (st, false)

/-- Inner node loop of query_ws; Bool false when IndexError or a send
exception aborts the body. -/
def wsNodes (sendOk : Nat → Bool) (step : Nat) (st : WSBodyState) :
    List NodeUpdate → WSBodyState × Bool
  | [] => (st, true)
  | nu :: rest =>
    match nu.2.getLast? with
    | none => (st, false)
    | some m =>
      match wsSend sendOk st (WSFrame.step step nu.1 (msgContent m)) with
      | (st2, true) => wsNodes sendOk step st2 rest
      | (st2, false) => (st2, false)

/-- Outer enumerate(..., start=1) loop of query_ws. -/
def wsChunks (sendOk : Nat → Bool) (step : Nat) (st : WSBodyState) :
    List Chunk → WSBodyState × Bool
  | [] => (st, true)
  | c :: rest =>
    match wsNodes sendOk step st c with
    | (st2, true) => wsChunks sendOk (step + 1) st2 rest
    | (st2, false) => (st2, false)

/-- The body of query_ws's try block: receive_json (none = it raised),
data["query"] (KeyError when absent), thread selection, init frame, the
stream loop, the done frame.  Returns the frames actually sent, the thread
id placed in the graph config (none when the body raised before building
the config), and whether the body raised. -/
def wsTryBody (recv : Option RecvData) (gen : String) (chunks : List Chunk)
    (sendOk : Nat → Bool) : List WSFrame × Option String × Bool :=
  match recv with
  | none => ([], none, true)
  | some d =>
    match d.query with
    | none => ([], none, true)
    | some _ =>
      let tid := pyOr d.thread_id gen
      match wsSend sendOk ⟨[], 0⟩ (WSFrame.init tid) with
      | (st, false) => (st.sent, none, true)
      | (st, true) =>
        match wsChunks sendOk 1 st chunks with
        | (st2, true) =>
          match wsSend sendOk st2 WSFrame.done with
          | (st3, ok) => (st3.sent, some tid, !ok)
        | (st2, false) => (st2.sent, some tid, true)

/-- Outcome of one execution of the query_ws handler. -/
structure WSResult where
  sent : List WSFrame
  configThread : Option String
  bodyRaised : Bool
  propagated : Bool
  closed : Bool
deriving DecidableEq

/-- query_ws of main.py: run the try body; except Exception swallows any
body exception (propagated stays false); finally closes the websocket. -/
def query_ws (recv : Option RecvData) (gen : String) (chunks : List Chunk)
    (sendOk : Nat → Bool) : WSResult :=
  let b := wsTryBody recv gen chunks sendOk
  { sent := b.1
    configThread := b.2.1
    bodyRaised := b.2.2
    propagated := false
    closed := true }

/-! ### Helpers of server.py -/

/-- extract_final_answer of server.py: scan reversed(messages) for the
first AIMessage. -/
def extract_final_answer (messages : List Msg) : Option Msg :=
  messages.reverse.find? isAI

/-- Python list-membership test of one char list inside another. -/
def isPrefixList : List Char → List Char → Bool
  | [], _ => true
  | _ :: _, [] => false
  | a :: as, b :: bs => a == b && isPrefixList as bs

/-- Python substring test  needle in hay  over char lists. -/
def containsSub (needle : List Char) : List Char → Bool
  | [] => needle.isEmpty
  | c :: rest => isPrefixList needle (c :: rest) || containsSub needle rest

/-- Python str.lower (ASCII-faithful). -/
def lowerStr (s : String) : String :=
  ⟨s.data.map Char.toLower⟩

/-- "retrieve" in name.lower() -/
def containsRetrieve (name : String) : Bool :=
  containsSub "retrieve".data (lowerStr name).data

/-- The dict returned by extract_tool_metadata. -/
structure ToolMeta where
  tool_name : Option String
  tool_type : String
deriving DecidableEq

/-- extract_tool_metadata of server.py: scan reversed(messages) for the
first ToolMessage and classify its name. -/
def extract_tool_metadata (messages : List Msg) : ToolMeta :=
  match messages.reverse.find? isTool with
  | some m =>
    { tool_name := some (toolName m)
      tool_type := if containsRetrieve (toolName m) then "rag" else "custom" }
  | none => { tool_name := none, tool_type := "none" }

/-- Loop body shared by get_last_ai_answer: first AI content in a list. -/
def lastAIContentAux : List Msg → Option String
  | [] => none
  | m :: rest => if isAI m then some (msgContent m) else lastAIContentAux rest

/-- get_last_ai_answer of server.py: scan reversed(messages), returning the
content of the first AIMessage found. -/
def get_last_ai_answer (messages : List Msg) : Option String :=
  lastAIContentAux messages.reverse

/-! ### /chat endpoint (server.py) -/

/-- Response of the /chat endpoint, plus the thread id placed into the
graph.invoke config. -/
structure ChatResult where
  configThread : String
  answer : String
  thread_id : String
  tool_type : String
  tool_name : Option String
deriving DecidableEq

/-- chat of server.py, as a function of the request thread_id, the
generated uuid4 string, and the messages list of the graph.invoke result. -/
def chat (reqTid : Option String) (gen : String) (resultMsgs : List Msg) :
    ChatResult :=
  let tid := pyOr reqTid gen
  let finalMsg := extract_final_answer resultMsgs
  let meta := extract_tool_metadata resultMsgs
  { configThread := tid
    answer := match finalMsg with
      | some m => msgContent m
      | none => "I don\x27t know."
    thread_id := tid
    tool_type := meta.tool_type
    tool_name := meta.tool_name }

/-! ### /query and /query/stream endpoints (main.py) -/

/-- Response of /query (none when run_graph raised), plus the thread id
run_graph places into the graph config. -/
structure QueryResult where
  configThread : String
  response : Option (String × List String × String)
deriving DecidableEq

/-- The /query endpoint: pick the thread id, run run_graph, return answer,
steps and thread_id. -/
def queryEndpoint (reqTid : Option String) (gen : String)
    (chunks : List Chunk) : QueryResult :=
  let tid := pyOr reqTid gen
  { configThread := tid
    response := (run_graph chunks).map fun al => (al.1, al.2, tid) }

/-- Events of the /query/stream response, plus the config thread id. -/
structure SSEResult where
  configThread : String
  events : List SSEEvent
deriving DecidableEq

/-- The /query/stream endpoint: pick the thread id and stream
sse_graph_stream. -/
def query_stream (reqTid : Option String) (gen : String)
    (chunks : List Chunk) : SSEResult :=
  let tid := pyOr reqTid gen
  { configThread := tid
    events := sse_graph_stream tid chunks }

/-! ### /suggest endpoint (server.py) -/

/-- Python line.split for the given char, keeping empty pieces. -/
def splitChar (c : Char) : List Char → List (List Char)
  | [] => [[]]
  | a :: rest =>
    match splitChar c rest with
    | [] => [[]]
    | h :: t => if a == c then [] :: h :: t else (a :: h) :: t

/-- Drop chars satisfying p from both ends (Python str.strip core). -/
def stripCharsBoth (p : Char → Bool) (l : List Char) : List Char :=
  ((l.dropWhile p).reverse.dropWhile p).reverse

/-- Python line.strip() (default whitespace). -/
def pyStrip (s : String) : String :=
  ⟨stripCharsBoth Char.isWhitespace s.data⟩

/-- Python line.strip with the dash/bullet/space set. -/
def stripDashBullet (s : String) : String :=
  ⟨stripCharsBoth (fun c => c == '-' || c == '•' || c == ' ') s.data⟩

/-- The suggestion list comprehension of /suggest: keep non-blank lines of
the model reply, each stripped of bullets/dashes then whitespace. -/
def parseSuggestions (content : String) : List String :=
  (((splitChar '\n' content.data).map (fun l => (⟨l⟩ : String))).filter
      (fun line => pyStrip line != "")).map
    fun line => pyStrip (stripDashBullet line)

/-- SUGGESTION_PROMPT.format(final_answer=fa) of server.py. -/
def suggestionPrompt (final_answer : String) : String :=
  "\nYou are an assistant that generates follow-up query suggestions.\n\nRules:\n- Use the provided final answer.\n- If the final answer contains a question, generate possible answers to that question.\n- If the final answer is neutral, suggest queries related to Cloud Computing Cell (CCC) and related to the neutral answer.\n- Generate between 2 and 3 suggestions.\n- Each suggestion must contain 3 to 6 words.\n- Do NOT number the suggestions.\n- Do NOT use bullets.\n\nFinal Answer:\n"
    ++ final_answer ++ "\n"

/-- Outcome of the /suggest endpoint: the response fields, whether
graph.get_state was called, and the prompt the hosted model was invoked
with (none when it was not invoked). -/
structure SuggestResult where
  suggestions : List String
  thread_id : Option String
  calledGetState : Bool
  modelPrompt : Option String
deriving DecidableEq

/-- suggest of server.py, as a function of the request fields, the
checkpointed state's messages (what graph.get_state would return) and the
hosted model's reply content as a function of the prompt.  Note both
emptiness tests are Python truthiness (`if not final_answer`,
`if not request.thread_id`). -/
def suggest (reqFinal reqTid : Option String) (stateMsgs : List Msg)
    (llm : String → String) : SuggestResult :=
  if falsy reqFinal then
    if falsy reqTid then
      { suggestions := [], thread_id := none
        calledGetState := false, modelPrompt := none }
    else
      let fa2 := get_last_ai_answer stateMsgs
      if falsy fa2 then
        { suggestions := [], thread_id := reqTid
          calledGetState := true, modelPrompt := none }
      else
        let p := suggestionPrompt (fa2.getD "")
        { suggestions := parseSuggestions (llm p), thread_id := reqTid
          calledGetState := true, modelPrompt := some p }
  else
    let p := suggestionPrompt (reqFinal.getD "")
    { suggestions := parseSuggestions (llm p), thread_id := reqTid
      calledGetState := false, modelPrompt := some p }

/-! ### Specification-side observers -/

/-- The ordered (step, node, messages) pairs of a stream, with the step
counter of enumerate(..., start=s). -/
def enumPairs : Nat → List Chunk → List (Nat × String × List Msg)
  | _, [] => []
  | s, c :: rest => c.map (fun nu => (s, nu.1, nu.2)) ++ enumPairs (s + 1) rest

/-- The ordered (step, node, messages) pairs of a stream, steps from 1. -/
def streamPairs (chunks : List Chunk) : List (Nat × String × List Msg) :=
  enumPairs 1 chunks

/-- Expected steps_log line for one pair. -/
def lineOf (p : Nat × String × List Msg) : String :=
  stepLine p.1 p.2.1 (lastContent p.2.2)

/-- Expected (step, node, content) triple for one pair. -/
def stepTriple (p : Nat × String × List Msg) : Nat × String × String :=
  (p.1, p.2.1, lastContent p.2.2)

/-- The (step, node, content) triples of the step events of an SSE stream. -/
def sseSteps (evs : List SSEEvent) : List (Nat × String × String) :=
  evs.filterMap fun e =>
    match e with
    | .step s n c => some (s, n, c)
    | _ => none

/-- The (step, node, content) triples of the step frames of a WS session. -/
def wsSteps (frames : List WSFrame) : List (Nat × String × String) :=
  frames.filterMap fun e =>
    match e with
    | .step s n c => some (s, n, c)
    | _ => none

/-- The node names of the node events of a /chat/stream response. -/
def chatNodes (evs : List ChatEvent) : List String :=
  evs.filterMap fun e =>
    match e with
    | .node n => some n
    | _ => none

/-- Final answer run_graph computes: last pair's last message content, or
the initial accumulator when there are no pairs. -/
def specFinal (a : String) (pairs : List (Nat × String × List Msg)) : String :=
  match pairs.getLast? with
  | none => a
  | some p => lastContent p.2.2

/-- A step event of sse_graph_stream. -/
def isStepEvent : SSEEvent → Bool
  | .step _ _ _ => true
  | _ => false

/-- A /chat/stream event that is neither the thread event nor done. -/
def isBodyChatEvent : ChatEvent → Bool
  | .thread _ => false
  | .done => false
  | _ => true

/-- The claim's case-insensitive containment of "retrieve" in a name:
lower both sides and test substring containment. -/
def caseInsensitiveContainsRetrieve (name : String) : Bool :=
  containsSub ("retrieve".data.map Char.toLower) (name.data.map Char.toLower)

/-- Expected SSE step event for one pair. -/
def evOf (p : Nat × String × List Msg) : SSEEvent :=
  SSEEvent.step p.1 p.2.1 (lastContent p.2.2)

/-- Expected WS step frame for one pair. -/
def frameOf (p : Nat × String × List Msg) : WSFrame :=
  WSFrame.step p.1 p.2.1 (lastContent p.2.2)

/-- Example stream shared by the concrete witnesses. -/
def sampleChunks : List Chunk :=
  [[("a", [Msg.ai "x"])], [("b", [Msg.human "h", Msg.tool "t" "y"])]]

end Ragbot

namespace Ragbot

/-! ### Generic list lemmas -/

theorem find?_eq_head?_filter {α : Type} (p : α → Bool) (l : List α) :
    l.find? p = (l.filter p).head? := by
  induction l with
  | nil => rfl
  | cons a t ih =>
    cases h : p a
    · rw [List.find?_cons_of_neg _ (by simp [h]), List.filter_cons_of_neg (by simp [h]), ih]
    · rw [List.find?_cons_of_pos _ h, List.filter_cons_of_pos h, List.head?_cons]

theorem reverse_find?_eq_getLast?_filter {α : Type} (p : α → Bool) (l : List α) :
    l.reverse.find? p = (l.filter p).getLast? := by
  rw [find?_eq_head?_filter, List.filter_reverse, List.head?_reverse]

theorem getLast?_append_of_ne_nil {α : Type} (l₁ : List α) {l₂ : List α}
    (h : l₂ ≠ []) : (l₁ ++ l₂).getLast? = l₂.getLast? := by
  rw [List.getLast?_append]
  obtain ⟨m, hm⟩ := Option.isSome_iff_exists.mp (List.getLast?_isSome.mpr h)
  simp [hm]

end Ragbot

namespace Ragbot

/-! ### specFinal and enumPairs lemmas -/

theorem specFinal_cons (a : String) (x : Nat × String × List Msg)
    (xs : List (Nat × String × List Msg)) :
    specFinal a (x :: xs) = specFinal (lastContent x.2.2) xs := by
  cases xs with
  | nil => simp [specFinal]
  | cons y ys =>
    simp only [specFinal, List.getLast?_cons_cons]
    cases h : (y :: ys).getLast? with
    | none => exact absurd (List.getLast?_eq_none_iff.mp h) (by simp)
    | some p => rfl

theorem specFinal_append (a : String) (xs ys : List (Nat × String × List Msg)) :
    specFinal a (xs ++ ys) = specFinal (specFinal a xs) ys := by
  rcases eq_or_ne ys [] with rfl | h
  · simp [specFinal]
  · simp only [specFinal, getLast?_append_of_ne_nil xs h]
    cases hy : ys.getLast? with
    | none => exact absurd (List.getLast?_eq_none_iff.mp hy) h
    | some p => rfl

theorem nonempty_getLast? (msgs : List Msg) (h : (!msgs.isEmpty) = true) :
    ∃ m, msgs.getLast? = some m ∧ lastContent msgs = msgContent m := by
  have hne : msgs ≠ [] := by simpa [List.isEmpty_iff] using h
  obtain ⟨m, hm⟩ := Option.isSome_iff_exists.mp (List.getLast?_isSome.mpr hne)
  exact ⟨m, hm, by simp [lastContent, hm]⟩

/-! ### run_graph lemmas -/

theorem runChunkNodes_eq (s : Nat) (c : Chunk) :
    ∀ (a : String) (log : List String), c.all (fun nu => !nu.2.isEmpty) = true →
    runChunkNodes s (a, log) c =
      some (specFinal a (c.map fun nu => (s, nu.1, nu.2)),
            log ++ (c.map fun nu => (s, nu.1, nu.2)).map lineOf) := by
  induction c with
  | nil => intro a log _; simp [runChunkNodes, specFinal]
  | cons nu rest ih =>
    intro a log hall
    rw [List.all_cons, Bool.and_eq_true] at hall
    obtain ⟨m, hm, hlc⟩ := nonempty_getLast? nu.2 hall.1
    simp only [runChunkNodes, runNode, hm]
    rw [ih (msgContent m) (log ++ [stepLine s nu.1 (msgContent m)]) hall.2]
    rw [List.map_cons, specFinal_cons]
    simp [lineOf, hlc, lastContent, hm]

theorem runChunks_eq (chunks : List Chunk) :
    ∀ (s : Nat) (a : String) (log : List String), wellFormed chunks = true →
    runChunks s (a, log) chunks =
      some (specFinal a (enumPairs s chunks),
            log ++ (enumPairs s chunks).map lineOf) := by
  induction chunks with
  | nil => intro s a log _; simp [runChunks, enumPairs, specFinal]
  | cons c rest ih =>
    intro s a log hwf
    rw [wellFormed, List.all_cons, Bool.and_eq_true] at hwf
    simp only [runChunks, runChunkNodes_eq s c a log hwf.1]
    rw [ih (s + 1) _ _ hwf.2]
    rw [show enumPairs s (c :: rest)
        = (c.map fun nu => (s, nu.1, nu.2)) ++ enumPairs (s + 1) rest from rfl]
    rw [specFinal_append, List.map_append, List.append_assoc]

theorem run_graph_eq (chunks : List Chunk) (hwf : wellFormed chunks = true) :
    run_graph chunks =
      some (specFinal "" (streamPairs chunks), (streamPairs chunks).map lineOf) := by
  rw [run_graph, runChunks_eq chunks 1 "" [] hwf]
  rfl

end Ragbot

namespace Ragbot

/-! ### sse_graph_stream lemmas -/

theorem sseNodes_eq (s : Nat) (c : Chunk)
    (h : c.all (fun nu => !nu.2.isEmpty) = true) :
    sseNodes s c = ((c.map fun nu => (s, nu.1, nu.2)).map evOf, true) := by
  induction c with
  | nil => simp [sseNodes]
  | cons nu rest ih =>
    rw [List.all_cons, Bool.and_eq_true] at h
    obtain ⟨m, hm, hlc⟩ := nonempty_getLast? nu.2 h.1
    simp only [sseNodes, hm, ih h.2]
    simp [evOf, lastContent, hm]

theorem sseChunks_eq (chunks : List Chunk) :
    ∀ s : Nat, wellFormed chunks = true →
    sseChunks s chunks = ((enumPairs s chunks).map evOf, true) := by
  induction chunks with
  | nil => intro s _; simp [sseChunks, enumPairs]
  | cons c rest ih =>
    intro s hwf
    rw [wellFormed, List.all_cons, Bool.and_eq_true] at hwf
    simp only [sseChunks, sseNodes_eq s c hwf.1, ih (s + 1) hwf.2]
    rw [show enumPairs s (c :: rest)
        = (c.map fun nu => (s, nu.1, nu.2)) ++ enumPairs (s + 1) rest from rfl]
    simp

theorem sse_graph_stream_eq (tid : String) (chunks : List Chunk)
    (hwf : wellFormed chunks = true) :
    sse_graph_stream tid chunks =
      SSEEvent.init tid :: ((streamPairs chunks).map evOf ++ [SSEEvent.done]) := by
  rw [sse_graph_stream, sseChunks_eq chunks 1 hwf]
  rfl

theorem sseSteps_append (l₁ l₂ : List SSEEvent) :
    sseSteps (l₁ ++ l₂) = sseSteps l₁ ++ sseSteps l₂ := by
  simp [sseSteps, List.filterMap_append]

theorem sseSteps_map_evOf (pairs : List (Nat × String × List Msg)) :
    sseSteps (pairs.map evOf) = pairs.map stepTriple := by
  induction pairs with
  | nil => rfl
  | cons p rest ih => simp [sseSteps, evOf, stepTriple, List.filterMap_cons] at ih ⊢; exact ih

/-! ### query_ws lemmas -/

theorem wsSend_ok (sendOk : Nat → Bool) (hok : ∀ n, sendOk n = true)
    (st : WSBodyState) (f : WSFrame) :
    wsSend sendOk st f = ({ sent := st.sent ++ [f], count := st.count + 1 }, true) := by
  simp [wsSend, hok st.count]

theorem wsNodes_eq (sendOk : Nat → Bool) (hok : ∀ n, sendOk n = true)
    (s : Nat) (c : Chunk) (hc : c.all (fun nu => !nu.2.isEmpty) = true) :
    ∀ st : WSBodyState,
    wsNodes sendOk s st c =
      ({ sent := st.sent ++ (c.map fun nu => (s, nu.1, nu.2)).map frameOf,
         count := st.count + c.length }, true) := by
  induction c with
  | nil => intro st; simp [wsNodes]
  | cons nu rest ih =>
    intro st
    rw [List.all_cons, Bool.and_eq_true] at hc
    obtain ⟨m, hm, hlc⟩ := nonempty_getLast? nu.2 hc.1
    simp only [wsNodes, hm, wsSend_ok sendOk hok]
    rw [ih hc.2]
    simp [frameOf, lastContent, hm, List.append_assoc]
    omega

theorem wsChunks_eq (sendOk : Nat → Bool) (hok : ∀ n, sendOk n = true)
    (chunks : List Chunk) :
    ∀ (s : Nat) (st : WSBodyState), wellFormed chunks = true →
    wsChunks sendOk s st chunks =
      ({ sent := st.sent ++ (enumPairs s chunks).map frameOf,
         count := st.count + (enumPairs s chunks).length }, true) := by
  induction chunks with
  | nil => intro s st _; simp [wsChunks, enumPairs]
  | cons c rest ih =>
    intro s st hwf
    rw [wellFormed, List.all_cons, Bool.and_eq_true] at hwf
    simp only [wsChunks, wsNodes_eq sendOk hok s c hwf.1 st, ih (s + 1) _ hwf.2]
    rw [show enumPairs s (c :: rest)
        = (c.map fun nu => (s, nu.1, nu.2)) ++ enumPairs (s + 1) rest from rfl]
    simp [List.append_assoc]
    omega

theorem query_ws_ok_eq (d : RecvData) (q : String) (hq : d.query = some q)
    (gen : String) (chunks : List Chunk) (sendOk : Nat → Bool)
    (hok : ∀ n, sendOk n = true) (hwf : wellFormed chunks = true) :
    query_ws (some d) gen chunks sendOk =
      { sent := WSFrame.init (pyOr d.thread_id gen) ::
          ((streamPairs chunks).map frameOf ++ [WSFrame.done]),
        configThread := some (pyOr d.thread_id gen),
        bodyRaised := false, propagated := false, closed := true } := by
  rw [query_ws, wsTryBody, hq]
  simp only [wsSend_ok sendOk hok, wsChunks_eq sendOk hok chunks 1 _ hwf,
    streamPairs]
  simp [wsSend_ok sendOk hok]

theorem wsSteps_map_frameOf (pairs : List (Nat × String × List Msg)) :
    wsSteps (pairs.map frameOf) = pairs.map stepTriple := by
  induction pairs with
  | nil => rfl
  | cons p rest ih => simp [wsSteps, frameOf, stepTriple, List.filterMap_cons] at ih ⊢; exact ih

theorem wsSteps_append (l₁ l₂ : List WSFrame) :
    wsSteps (l₁ ++ l₂) = wsSteps l₁ ++ wsSteps l₂ := by
  simp [wsSteps, List.filterMap_append]

end Ragbot

namespace Ragbot

/-! ### event_stream lemmas -/

theorem chatNodes_msgEvents (msgs : List Msg) : chatNodes (msgEvents msgs) = [] := by
  induction msgs with
  | nil => rfl
  | cons m rest ih =>
    cases m <;> simp only [msgEvents, chatNodes, List.filterMap_cons] at ih ⊢ <;>
      simp_all <;> exact ih

theorem chatNodes_append (l₁ l₂ : List ChatEvent) :
    chatNodes (l₁ ++ l₂) = chatNodes l₁ ++ chatNodes l₂ := by
  simp [chatNodes, List.filterMap_append]

theorem chatNodes_chunk (c : Chunk) :
    chatNodes (c.flatMap fun nu => ChatEvent.node nu.1 :: msgEvents nu.2) =
      c.map fun nu => nu.1 := by
  induction c with
  | nil => rfl
  | cons nu rest ih =>
    rw [List.flatMap_cons, chatNodes_append]
    rw [show chatNodes (ChatEvent.node nu.1 :: msgEvents nu.2)
        = nu.1 :: chatNodes (msgEvents nu.2) from rfl]
    rw [chatNodes_msgEvents, ih]
    rfl

theorem chatNodes_event_stream (tid : String) (chunks : List Chunk) :
    chatNodes (event_stream tid chunks) = chunks.flatMap fun c => c.map fun nu => nu.1 := by
  rw [event_stream]
  rw [show chatNodes (ChatEvent.thread tid :: ((chunks.flatMap fun c =>
        c.flatMap fun nu => ChatEvent.node nu.1 :: msgEvents nu.2) ++ [ChatEvent.done]))
      = chatNodes ((chunks.flatMap fun c =>
        c.flatMap fun nu => ChatEvent.node nu.1 :: msgEvents nu.2) ++ [ChatEvent.done]) from rfl]
  rw [chatNodes_append]
  rw [show chatNodes [ChatEvent.done] = [] from rfl]
  rw [List.append_nil]
  induction chunks with
  | nil => rfl
  | cons c rest ih =>
    rw [List.flatMap_cons, chatNodes_append, chatNodes_chunk, ih, List.flatMap_cons]

theorem enumPairs_map_node (chunks : List Chunk) :
    ∀ s : Nat, (enumPairs s chunks).map (fun p => p.2.1)
      = chunks.flatMap fun c => c.map fun nu => nu.1 := by
  induction chunks with
  | nil => intro s; rfl
  | cons c rest ih =>
    intro s
    rw [show enumPairs s (c :: rest)
        = (c.map fun nu => (s, nu.1, nu.2)) ++ enumPairs (s + 1) rest from rfl]
    rw [List.map_append, ih (s + 1), List.flatMap_cons, List.map_map]
    rfl

/-! ### Step numbering -/

theorem enumPairs_eq_range (chunks : List Chunk) :
    ∀ s : Nat, enumPairs s chunks
      = (List.range chunks.length).flatMap
          (fun i => (chunks.getD i []).map fun nu => (s + i, nu.1, nu.2)) := by
  induction chunks with
  | nil => intro s; rfl
  | cons c rest ih =>
    intro s
    rw [show enumPairs s (c :: rest)
        = (c.map fun nu => (s, nu.1, nu.2)) ++ enumPairs (s + 1) rest from rfl]
    rw [List.length_cons, List.range_succ_eq_map, List.flatMap_cons, List.flatMap_map]
    have h1 : ((c :: rest).getD 0 []).map (fun nu => ((s + 0 : Nat), nu.1, nu.2))
        = c.map fun nu => (s, nu.1, nu.2) := by
      simp
    rw [h1, ih (s + 1)]
    refine congrArg₂ HAppend.hAppend rfl (congrArg _ (funext fun a => ?_))
    simp only [Function.comp, Nat.succ_eq_add_one, List.getD_cons_succ]
    have h2 : s + 1 + a = s + (a + 1) := by omega
    simp only [h2]

theorem streamPairs_eq_range (chunks : List Chunk) :
    streamPairs chunks
      = (List.range chunks.length).flatMap
          (fun i => (chunks.getD i []).map fun nu => (i + 1, nu.1, nu.2)) := by
  rw [streamPairs, enumPairs_eq_range chunks 1]
  refine congrArg _ (funext fun i => ?_)
  have h : (1 + i : Nat) = i + 1 := by omega
  simp only [h]

end Ragbot

namespace Ragbot

/-! ### Claim C1 -/

/-- C1: each transport relays the per-node updates in the order the graph
produced them: run_graph's steps_log, sse_graph_stream's step events,
query_ws's step frames and event_stream's node events all list the
(chunk, node) pairs of the input sequence in order, and the enumerate step
counter starts at 1 and increases by 1 per chunk. -/
theorem claim_C1_stream_order (tid gen q : String) (chunks : List Chunk)
    (hwf : wellFormed chunks = true) :
    (∃ fin, run_graph chunks = some (fin, (streamPairs chunks).map lineOf))
    ∧ sseSteps (sse_graph_stream tid chunks) = (streamPairs chunks).map stepTriple
    ∧ wsSteps (query_ws (some ⟨some q, some tid⟩) gen chunks (fun _ => true)).sent
        = (streamPairs chunks).map stepTriple
    ∧ chatNodes (event_stream tid chunks) = (streamPairs chunks).map (fun p => p.2.1)
    ∧ streamPairs chunks
        = (List.range chunks.length).flatMap
            (fun i => (chunks.getD i []).map fun nu => (i + 1, nu.1, nu.2)) := by
  refine ⟨⟨specFinal "" (streamPairs chunks), run_graph_eq chunks hwf⟩, ?_, ?_, ?_,
    streamPairs_eq_range chunks⟩
  · rw [sse_graph_stream_eq tid chunks hwf]
    rw [show sseSteps (SSEEvent.init tid :: ((streamPairs chunks).map evOf ++ [SSEEvent.done]))
        = sseSteps ((streamPairs chunks).map evOf ++ [SSEEvent.done]) from rfl]
    rw [sseSteps_append, sseSteps_map_evOf]
    simp [sseSteps]
  · rw [query_ws_ok_eq ⟨some q, some tid⟩ q rfl gen chunks _ (fun _ => rfl) hwf]
    rw [show wsSteps (WSFrame.init (pyOr (some tid) gen) ::
          ((streamPairs chunks).map frameOf ++ [WSFrame.done]))
        = wsSteps ((streamPairs chunks).map frameOf ++ [WSFrame.done]) from rfl]
    rw [wsSteps_append, wsSteps_map_frameOf]
    simp [wsSteps]
  · rw [chatNodes_event_stream]
    exact (enumPairs_map_node chunks 1).symm

/-- C1 witness at a concrete two-chunk stream. -/
theorem claim_C1_stream_order_witness :
    wellFormed sampleChunks = true
    ∧ ((∃ fin, run_graph sampleChunks = some (fin, (streamPairs sampleChunks).map lineOf))
      ∧ sseSteps (sse_graph_stream "T" sampleChunks) = (streamPairs sampleChunks).map stepTriple
      ∧ wsSteps (query_ws (some ⟨some "Q", some "T"⟩) "G" sampleChunks (fun _ => true)).sent
          = (streamPairs sampleChunks).map stepTriple
      ∧ chatNodes (event_stream "T" sampleChunks) = (streamPairs sampleChunks).map (fun p => p.2.1)
      ∧ streamPairs sampleChunks
          = (List.range sampleChunks.length).flatMap
              (fun i => (sampleChunks.getD i []).map fun nu => (i + 1, nu.1, nu.2))) :=
  ⟨by decide, claim_C1_stream_order "T" "G" "Q" sampleChunks (by decide)⟩

/-! ### Claim C2 -/

/-- C2: for a non-empty well-formed stream, run_graph returns the content of
the last message of the last node update as final answer and one formatted
steps entry per (step, node) pair; /query returns these verbatim together
with the thread id. -/
theorem claim_C2_final_answer (reqTid : Option String) (gen : String) (chunks : List Chunk)
    (hwf : wellFormed chunks = true) (hne : streamPairs chunks ≠ []) :
    ∃ p, (streamPairs chunks).getLast? = some p
      ∧ run_graph chunks = some (lastContent p.2.2, (streamPairs chunks).map lineOf)
      ∧ queryEndpoint reqTid gen chunks =
          { configThread := pyOr reqTid gen
            response := some (lastContent p.2.2, (streamPairs chunks).map lineOf, pyOr reqTid gen) } := by
  obtain ⟨p, hp⟩ := Option.isSome_iff_exists.mp (List.getLast?_isSome.mpr hne)
  refine ⟨p, hp, ?_, ?_⟩
  · rw [run_graph_eq chunks hwf]
    simp [specFinal, hp]
  · rw [queryEndpoint, run_graph_eq chunks hwf]
    simp [specFinal, hp]

/-- C2 witness at a concrete two-chunk stream. -/
theorem claim_C2_final_answer_witness :
    wellFormed sampleChunks = true ∧ streamPairs sampleChunks ≠ []
    ∧ ∃ p, (streamPairs sampleChunks).getLast? = some p
      ∧ run_graph sampleChunks = some (lastContent p.2.2, (streamPairs sampleChunks).map lineOf)
      ∧ queryEndpoint (some "T") "G" sampleChunks =
          { configThread := pyOr (some "T") "G"
            response := some (lastContent p.2.2, (streamPairs sampleChunks).map lineOf,
              pyOr (some "T") "G") } :=
  ⟨by decide, by decide, claim_C2_final_answer (some "T") "G" sampleChunks (by decide) (by decide)⟩

/-! ### Claim C5 -/

/-- C5: every SSE stream opens with the thread-id event before any step/node
event and (for well-formed streams) closes with done as the final event,
for both sse_graph_stream and event_stream. -/
theorem claim_C5_sse_framing (tid : String) (chunks : List Chunk)
    (hwf : wellFormed chunks = true) :
    (∃ body, sse_graph_stream tid chunks = SSEEvent.init tid :: (body ++ [SSEEvent.done])
        ∧ ∀ e ∈ body, isStepEvent e = true)
    ∧ (∃ body, event_stream tid chunks = ChatEvent.thread tid :: (body ++ [ChatEvent.done])
        ∧ ∀ e ∈ body, isBodyChatEvent e = true) := by
  constructor
  · refine ⟨(streamPairs chunks).map evOf, sse_graph_stream_eq tid chunks hwf, ?_⟩
    intro e he
    obtain ⟨p, _, rfl⟩ := List.mem_map.mp he
    rfl
  · refine ⟨chunks.flatMap fun c => c.flatMap fun nu => ChatEvent.node nu.1 :: msgEvents nu.2,
      rfl, ?_⟩
    intro e he
    obtain ⟨c, _, hc⟩ := List.mem_flatMap.mp he
    obtain ⟨nu, _, hnu⟩ := List.mem_flatMap.mp hc
    rcases List.mem_cons.mp hnu with rfl | hin
    · rfl
    · obtain ⟨m, _, hm⟩ := List.mem_filterMap.mp hin
      cases m with
      | human c2 => simp at hm
      | ai c2 => simp only at hm; rw [← Option.some_inj.mp hm]; rfl
      | tool n2 c2 => simp only at hm; rw [← Option.some_inj.mp hm]; rfl

/-- C5 witness at a concrete two-chunk stream. -/
theorem claim_C5_sse_framing_witness :
    wellFormed sampleChunks = true
    ∧ ((∃ body, sse_graph_stream "T" sampleChunks = SSEEvent.init "T" :: (body ++ [SSEEvent.done])
        ∧ ∀ e ∈ body, isStepEvent e = true)
      ∧ (∃ body, event_stream "T" sampleChunks = ChatEvent.thread "T" :: (body ++ [ChatEvent.done])
        ∧ ∀ e ∈ body, isBodyChatEvent e = true)) :=
  ⟨by decide, claim_C5_sse_framing "T" sampleChunks (by decide)⟩

/-! ### Claim C6 -/

/-- C6: the query_ws handler never propagates an exception to its caller
(receive failures, missing query key, stream IndexError and send failures
are all swallowed) and always closes the websocket before returning. -/
theorem claim_C6_ws_swallow (recv : Option RecvData) (gen : String)
    (chunks : List Chunk) (sendOk : Nat → Bool) :
    (query_ws recv gen chunks sendOk).propagated = false
    ∧ (query_ws recv gen chunks sendOk).closed = true :=
  ⟨rfl, rfl⟩

end Ragbot

namespace Ragbot

/-! ### Claim C3 -/

/-- C3: extract_final_answer returns the last AIMessage of the list, and
none exactly when the list has no AIMessage. -/
theorem claim_C3_extract_final (msgs : List Msg) :
    extract_final_answer msgs = (msgs.filter isAI).getLast?
    ∧ (extract_final_answer msgs = none ↔ ∀ m ∈ msgs, isAI m = false) := by
  constructor
  · rw [extract_final_answer, reverse_find?_eq_getLast?_filter]
  · rw [extract_final_answer, List.find?_eq_none]
    constructor
    · intro h m hm
      simpa using h m (List.mem_reverse.mpr hm)
    · intro h m hm
      simp [h m (List.mem_reverse.mp hm)]

/-- C3 witness: the second AI message wins on a mixed concrete list. -/
theorem claim_C3_extract_final_witness :
    extract_final_answer [Msg.ai "a", Msg.human "h", Msg.ai "b", Msg.tool "t" "c"]
      = ([Msg.ai "a", Msg.human "h", Msg.ai "b", Msg.tool "t" "c"].filter isAI).getLast? :=
  (claim_C3_extract_final [Msg.ai "a", Msg.human "h", Msg.ai "b", Msg.tool "t" "c"]).1

/-! ### Claim C4 -/

theorem containsRetrieve_eq (name : String) :
    containsRetrieve name = caseInsensitiveContainsRetrieve name := by
  rw [containsRetrieve, caseInsensitiveContainsRetrieve]
  rw [show ("retrieve".data.map Char.toLower) = "retrieve".data from by decide]
  rfl

/-- C4: extract_tool_metadata reports the name of the last ToolMessage with
tool_type rag exactly when that name contains "retrieve" case-insensitively
(custom otherwise), and (none, "none") when there is no ToolMessage. -/
theorem claim_C4_extract_tool (msgs : List Msg) :
    ((∀ m ∈ msgs, isTool m = false) →
        extract_tool_metadata msgs = ⟨none, "none"⟩)
    ∧ (∀ m, (msgs.filter isTool).getLast? = some m →
        extract_tool_metadata msgs =
          ⟨some (toolName m),
            if caseInsensitiveContainsRetrieve (toolName m) then "rag" else "custom"⟩)
    ∧ ((msgs.filter isTool).getLast? = none ↔ ∀ m ∈ msgs, isTool m = false) := by
  have hrev : msgs.reverse.find? isTool = (msgs.filter isTool).getLast? :=
    reverse_find?_eq_getLast?_filter isTool msgs
  refine ⟨?_, ?_, ?_⟩
  · intro h
    have hnone : msgs.reverse.find? isTool = none :=
      List.find?_eq_none.mpr fun m hm => by simp [h m (List.mem_reverse.mp hm)]
    simp [extract_tool_metadata, hnone]
  · intro m hm
    simp only [extract_tool_metadata, hrev, hm, containsRetrieve_eq]
  · rw [← hrev, List.find?_eq_none]
    constructor
    · intro h m hm
      simpa using h m (List.mem_reverse.mpr hm)
    · intro h m hm
      simp [h m (List.mem_reverse.mp hm)]

/-- C4 witness: a retrieval tool name yields tool_type rag. -/
theorem claim_C4_extract_tool_witness :
    ([Msg.tool "retrieve_info_tool" "c", Msg.human "h"].filter isTool).getLast?
        = some (Msg.tool "retrieve_info_tool" "c")
    ∧ extract_tool_metadata [Msg.tool "retrieve_info_tool" "c", Msg.human "h"]
      = ⟨some (toolName (Msg.tool "retrieve_info_tool" "c")),
          if caseInsensitiveContainsRetrieve (toolName (Msg.tool "retrieve_info_tool" "c"))
          then "rag" else "custom"⟩ :=
  ⟨by decide,
    (claim_C4_extract_tool [Msg.tool "retrieve_info_tool" "c", Msg.human "h"]).2.1
      (Msg.tool "retrieve_info_tool" "c") (by decide)⟩

/-! ### Claim C9 -/

/-- C9: a /chat invocation whose result has no AIMessage still succeeds,
answering "I don't know." with the tool metadata of the same list. -/
theorem claim_C9_chat_no_ai (reqTid : Option String) (gen : String) (msgs : List Msg)
    (h : ∀ m ∈ msgs, isAI m = false) :
    (chat reqTid gen msgs).answer = "I don\x27t know."
    ∧ (chat reqTid gen msgs).tool_type = (extract_tool_metadata msgs).tool_type
    ∧ (chat reqTid gen msgs).tool_name = (extract_tool_metadata msgs).tool_name := by
  have hnone : extract_final_answer msgs = none := by
    rw [extract_final_answer, List.find?_eq_none]
    intro m hm
    simp [h m (List.mem_reverse.mp hm)]
  exact ⟨by simp [chat, hnone], rfl, rfl⟩

/-- C9 witness: tool-only result list. -/
theorem claim_C9_chat_no_ai_witness :
    (∀ m ∈ [Msg.tool "retrieve_faqs_tool" "ans", Msg.human "q"], isAI m = false)
    ∧ ((chat (some "T") "G" [Msg.tool "retrieve_faqs_tool" "ans", Msg.human "q"]).answer
        = "I don\x27t know."
      ∧ (chat (some "T") "G" [Msg.tool "retrieve_faqs_tool" "ans", Msg.human "q"]).tool_type
        = (extract_tool_metadata [Msg.tool "retrieve_faqs_tool" "ans", Msg.human "q"]).tool_type
      ∧ (chat (some "T") "G" [Msg.tool "retrieve_faqs_tool" "ans", Msg.human "q"]).tool_name
        = (extract_tool_metadata [Msg.tool "retrieve_faqs_tool" "ans", Msg.human "q"]).tool_name) :=
  ⟨by decide,
    claim_C9_chat_no_ai (some "T") "G" [Msg.tool "retrieve_faqs_tool" "ans", Msg.human "q"]
      (by decide)⟩

/-! ### Claim C10 -/

theorem lastAIContentAux_eq (l : List Msg) :
    lastAIContentAux l = (l.find? isAI).map msgContent := by
  induction l with
  | nil => rfl
  | cons m rest ih =>
    cases h : isAI m <;> simp [lastAIContentAux, List.find?_cons, h, ih]

/-- C10: get_last_ai_answer agrees with extract_final_answer up to taking
the content, and they are none together. -/
theorem claim_C10_extractors_agree (msgs : List Msg) :
    get_last_ai_answer msgs = (extract_final_answer msgs).map msgContent
    ∧ (extract_final_answer msgs = none ↔ get_last_ai_answer msgs = none) := by
  have h : get_last_ai_answer msgs = (extract_final_answer msgs).map msgContent := by
    rw [get_last_ai_answer, extract_final_answer, lastAIContentAux_eq]
  refine ⟨h, ?_⟩
  rw [h]
  cases extract_final_answer msgs <;> simp

/-- C10 witness on a concrete list. -/
theorem claim_C10_extractors_agree_witness :
    get_last_ai_answer [Msg.ai "a", Msg.tool "t" "c"]
      = (extract_final_answer [Msg.ai "a", Msg.tool "t" "c"]).map msgContent :=
  (claim_C10_extractors_agree [Msg.ai "a", Msg.tool "t" "c"]).1

end Ragbot

namespace Ragbot

/-! ### Claim C7 -/

/-- C7 counterexample: with final_answer absent and thread_id supplied but
equal to the empty string (so present, in the claim's terms, but falsy in
Python), /suggest does not load the checkpointed state, does not invoke the
model, and answers with a null thread id and no suggestions, although the
state holds an AIMessage — contradicting the claimed behaviour for a
present thread_id. -/
theorem claim_C7_counterexample :
    (suggest none (some "") [Msg.ai "hello"] (fun _ => "alpha beta")).calledGetState = false
    ∧ (suggest none (some "") [Msg.ai "hello"] (fun _ => "alpha beta")).modelPrompt = none
    ∧ (suggest none (some "") [Msg.ai "hello"] (fun _ => "alpha beta")).thread_id = none
    ∧ (suggest none (some "") [Msg.ai "hello"] (fun _ => "alpha beta")).suggestions = [] := by
  decide

/-- C7 (amended): with absence read as Python falsiness (None or empty
string): a falsy final_answer and falsy thread_id yield an empty suggestion
list with null thread id and neither graph nor model call; a falsy
final_answer with a truthy thread_id loads the state, answers empty (same
thread id, no model call) when the state's last AI content is missing or
empty, and otherwise invokes the model on the fixed prompt built from that
content; the model is only ever invoked once a truthy final answer was
obtained. -/
theorem claim_C7_suggest_amended (reqFinal reqTid : Option String) (st : List Msg)
    (llm : String → String) :
    (falsy reqFinal = true → falsy reqTid = true →
      suggest reqFinal reqTid st llm =
        { suggestions := [], thread_id := none, calledGetState := false, modelPrompt := none })
    ∧ (falsy reqFinal = true → falsy reqTid = false →
        (suggest reqFinal reqTid st llm).calledGetState = true
        ∧ (falsy (get_last_ai_answer st) = true →
            suggest reqFinal reqTid st llm =
              { suggestions := [], thread_id := reqTid, calledGetState := true,
                modelPrompt := none })
        ∧ (∀ fa, get_last_ai_answer st = some fa → fa ≠ "" →
            suggest reqFinal reqTid st llm =
              { suggestions := parseSuggestions (llm (suggestionPrompt fa)),
                thread_id := reqTid, calledGetState := true,
                modelPrompt := some (suggestionPrompt fa) }))
    ∧ ((suggest reqFinal reqTid st llm).modelPrompt ≠ none →
        falsy reqFinal = false
        ∨ ((suggest reqFinal reqTid st llm).calledGetState = true
            ∧ ∃ fa, get_last_ai_answer st = some fa ∧ fa ≠ "")) := by
  refine ⟨?_, ?_, ?_⟩
  · intro h1 h2
    simp [suggest, h1, h2]
  · intro h1 h2
    refine ⟨?_, ?_, ?_⟩
    · cases h3 : falsy (get_last_ai_answer st) <;> simp [suggest, h1, h2, h3]
    · intro h3
      simp [suggest, h1, h2, h3]
    · intro fa hfa hne
      have h3 : falsy (some fa) = false := by
        simp [falsy, hne]
      simp [suggest, h1, h2, hfa, h3]
  · intro hmp
    cases h1 : falsy reqFinal
    · exact Or.inl rfl
    · right
      cases h2 : falsy reqTid
      · cases h3 : falsy (get_last_ai_answer st)
        · refine ⟨by simp [suggest, h1, h2, h3], ?_⟩
          cases hfa : get_last_ai_answer st with
          | none => rw [hfa] at h3; simp [falsy] at h3
          | some fa =>
            refine ⟨fa, rfl, ?_⟩
            rw [hfa] at h3
            simpa [falsy] using h3
        · exact absurd (by simp [suggest, h1, h2, h3]) hmp
      · exact absurd (by simp [suggest, h1, h2]) hmp

/-- C7 witness: absent final_answer, non-empty thread id, state whose last
AI message is "hello": the model is invoked on the templated prompt. -/
theorem claim_C7_suggest_amended_witness :
    falsy (none : Option String) = true
    ∧ falsy (some "T") = false
    ∧ get_last_ai_answer [Msg.human "q", Msg.ai "hello"] = some "hello"
    ∧ suggest none (some "T") [Msg.human "q", Msg.ai "hello"] (fun _ => "s1 s2\ns3 s4")
        = { suggestions := parseSuggestions
              ((fun _ => "s1 s2\ns3 s4") (suggestionPrompt "hello")),
            thread_id := some "T", calledGetState := true,
            modelPrompt := some (suggestionPrompt "hello") } :=
  ⟨by decide, by decide, by decide,
    ((claim_C7_suggest_amended none (some "T") [Msg.human "q", Msg.ai "hello"]
        (fun _ => "s1 s2\ns3 s4")).2.1 (by decide) (by decide)).2.2 "hello" (by decide)
      (by decide)⟩

end Ragbot

namespace Ragbot

/-! ### Claim C8 -/

theorem wsNodes_sent_prefix (sendOk : Nat → Bool) (s : Nat) (c : Chunk) :
    ∀ st : WSBodyState, ∃ t, (wsNodes sendOk s st c).1.sent = st.sent ++ t := by
  induction c with
  | nil => intro st; exact ⟨[], by simp [wsNodes]⟩
  | cons nu rest ih =>
    intro st
    rw [wsNodes]
    cases hm : nu.2.getLast? with
    | none => exact ⟨[], by simp⟩
    | some m =>
      cases hs : sendOk st.count
      · exact ⟨[], by simp [wsSend, hs]⟩
      · obtain ⟨t, htt⟩ :=
          ih ⟨st.sent ++ [WSFrame.step s nu.1 (msgContent m)], st.count + 1⟩
        refine ⟨WSFrame.step s nu.1 (msgContent m) :: t, ?_⟩
        simp only [wsSend, hs, if_true]
        rw [htt]
        simp

theorem wsChunks_sent_prefix (sendOk : Nat → Bool) (chunks : List Chunk) :
    ∀ (s : Nat) (st : WSBodyState), ∃ t, (wsChunks sendOk s st chunks).1.sent = st.sent ++ t := by
  induction chunks with
  | nil => intro s st; exact ⟨[], by simp [wsChunks]⟩
  | cons c rest ih =>
    intro s st
    rw [wsChunks]
    obtain ⟨t1, ht1⟩ := wsNodes_sent_prefix sendOk s c st
    cases hn : wsNodes sendOk s st c with
    | mk st2 ok =>
      rw [hn] at ht1
      have ht1b : st2.sent = st.sent ++ t1 := ht1
      cases ok
      · exact ⟨t1, ht1b⟩
      · obtain ⟨t2, ht2⟩ := ih (s + 1) st2
        exact ⟨t1 ++ t2, by rw [ht2, ht1b, List.append_assoc]⟩

theorem query_ws_echo (d : RecvData) (q : String) (hq : d.query = some q)
    (gen : String) (chunks : List Chunk) :
    (query_ws (some d) gen chunks (fun _ => true)).configThread
        = some (pyOr d.thread_id gen)
    ∧ (query_ws (some d) gen chunks (fun _ => true)).sent.head?
        = some (WSFrame.init (pyOr d.thread_id gen)) := by
  rw [query_ws, wsTryBody, hq]
  simp only [wsSend, if_true]
  obtain ⟨t, htp⟩ := wsChunks_sent_prefix (fun _ => true) chunks 1
    { sent := [] ++ [WSFrame.init (pyOr d.thread_id gen)], count := 0 + 1 }
  cases hw : wsChunks (fun _ => true) 1
      { sent := [] ++ [WSFrame.init (pyOr d.thread_id gen)], count := 0 + 1 } chunks with
  | mk st2 ok =>
    rw [hw] at htp
    have htp2 : st2.sent = WSFrame.init (pyOr d.thread_id gen) :: t := htp
    cases ok
    · refine ⟨rfl, ?_⟩
      show st2.sent.head? = some (WSFrame.init (pyOr d.thread_id gen))
      rw [htp2]
      rfl
    · refine ⟨rfl, ?_⟩
      show ((wsSend (fun _ => true) st2 WSFrame.done).1.sent).head?
          = some (WSFrame.init (pyOr d.thread_id gen))
      simp only [wsSend, if_true]
      rw [htp2]
      rfl

/-- C8: every endpoint uses the client-supplied non-empty thread id both in
the graph config and in the value echoed to the client, and with no
thread id supplied it uses the freshly generated uuid string for both. -/
theorem claim_C8_thread_handling (t gen q : String) (ht : t ≠ "")
    (msgs : List Msg) (chunks : List Chunk) :
    ((chat (some t) gen msgs).configThread = t ∧ (chat (some t) gen msgs).thread_id = t)
    ∧ ((chat none gen msgs).configThread = gen ∧ (chat none gen msgs).thread_id = gen)
    ∧ ((queryEndpoint (some t) gen chunks).configThread = t
        ∧ ∀ r ∈ (queryEndpoint (some t) gen chunks).response, r.2.2 = t)
    ∧ ((queryEndpoint none gen chunks).configThread = gen
        ∧ ∀ r ∈ (queryEndpoint none gen chunks).response, r.2.2 = gen)
    ∧ ((query_stream (some t) gen chunks).configThread = t
        ∧ (query_stream (some t) gen chunks).events.head? = some (SSEEvent.init t))
    ∧ ((query_stream none gen chunks).configThread = gen
        ∧ (query_stream none gen chunks).events.head? = some (SSEEvent.init gen))
    ∧ ((query_ws (some ⟨some q, some t⟩) gen chunks (fun _ => true)).configThread = some t
        ∧ (query_ws (some ⟨some q, some t⟩) gen chunks (fun _ => true)).sent.head?
            = some (WSFrame.init t))
    ∧ ((query_ws (some ⟨some q, none⟩) gen chunks (fun _ => true)).configThread = some gen
        ∧ (query_ws (some ⟨some q, none⟩) gen chunks (fun _ => true)).sent.head?
            = some (WSFrame.init gen)) := by
  have hp : pyOr (some t) gen = t := by simp [pyOr, ht]
  have hresp : ∀ tid : String, ∀ r ∈ ((run_graph chunks).map fun al => (al.1, al.2, tid)),
      r.2.2 = tid := by
    intro tid r hr
    cases h : run_graph chunks with
    | none => rw [h] at hr; simp at hr
    | some v =>
      rw [h] at hr
      have hv : (v.1, v.2, tid) = r := by simpa using hr
      rw [← hv]
  have hws1 := query_ws_echo ⟨some q, some t⟩ q rfl gen chunks
  rw [show pyOr (some t) gen = t from hp] at hws1
  have hws2 := query_ws_echo ⟨some q, none⟩ q rfl gen chunks
  refine ⟨⟨by simp [chat, hp], by simp [chat, hp]⟩, ⟨rfl, rfl⟩,
    ⟨by simp [queryEndpoint, hp], ?_⟩, ⟨rfl, hresp gen⟩,
    ⟨by simp [query_stream, hp], by simp [query_stream, sse_graph_stream, hp]⟩,
    ⟨rfl, rfl⟩, hws1, hws2⟩
  intro r hr
  simp only [queryEndpoint, hp] at hr
  exact hresp t r hr

/-- C8 witness at concrete inputs. -/
theorem claim_C8_thread_handling_witness :
    ("abc" : String) ≠ ""
    ∧ (((chat (some "abc") "G" [Msg.ai "x"]).configThread = "abc"
        ∧ (chat (some "abc") "G" [Msg.ai "x"]).thread_id = "abc")
      ∧ ((chat none "G" [Msg.ai "x"]).configThread = "G"
        ∧ (chat none "G" [Msg.ai "x"]).thread_id = "G")
      ∧ ((queryEndpoint (some "abc") "G" sampleChunks).configThread = "abc"
        ∧ ∀ r ∈ (queryEndpoint (some "abc") "G" sampleChunks).response, r.2.2 = "abc")
      ∧ ((queryEndpoint none "G" sampleChunks).configThread = "G"
        ∧ ∀ r ∈ (queryEndpoint none "G" sampleChunks).response, r.2.2 = "G")
      ∧ ((query_stream (some "abc") "G" sampleChunks).configThread = "abc"
        ∧ (query_stream (some "abc") "G" sampleChunks).events.head?
            = some (SSEEvent.init "abc"))
      ∧ ((query_stream none "G" sampleChunks).configThread = "G"
        ∧ (query_stream none "G" sampleChunks).events.head? = some (SSEEvent.init "G"))
      ∧ ((query_ws (some ⟨some "Q", some "abc"⟩) "G" sampleChunks (fun _ => true)).configThread
            = some "abc"
        ∧ (query_ws (some ⟨some "Q", some "abc"⟩) "G" sampleChunks (fun _ => true)).sent.head?
            = some (WSFrame.init "abc"))
      ∧ ((query_ws (some ⟨some "Q", none⟩) "G" sampleChunks (fun _ => true)).configThread
            = some "G"
        ∧ (query_ws (some ⟨some "Q", none⟩) "G" sampleChunks (fun _ => true)).sent.head?
            = some (WSFrame.init "G"))) :=
  ⟨by decide, claim_C8_thread_handling "abc" "G" "Q" (by decide) [Msg.ai "x"] sampleChunks⟩

end Ragbot
